import Mathlib

/-!
Verification of the caption timeline synthesis pipeline of
`src/electron/processor.cjs` (ai-video-to-shorts).

The definitions below are a shallow embedding of the functions of that
file.  Machine floats are modelled by rational numbers; JavaScript
falsy-or-default expressions (`x || d`) are modelled by `orFalsy` over
`Option` values (absent field or zero falls back to the default); text
parsed by regular expressions is modelled from the matched groups.
Timestamps, durations and scale factors are exact rationals.
-/

/-- JavaScript `x || d` for an optional numeric field: `undefined` and `0`
are falsy and replaced by the default `d`. -/
def orFalsy (v : Option ℚ) (d : ℚ) : ℚ :=
  match v with
  | none => d
  | some x => if x = 0 then d else x

/-- JavaScript `x || d` for an optional natural-number field. -/
def orFalsyNat (v : Option Nat) (d : Nat) : Nat :=
  match v with
  | none => d
  | some x => if x = 0 then d else x

/-- JavaScript `x || d` for an optional string field: `undefined` and the
empty string are falsy. -/
def orFalsyStr (v : Option String) (d : String) : String :=
  match v with
  | none => d
  | some x => if x = "" then d else x

/-- One timed text unit as produced by the transcript parsers of
`processor.cjs` (`parseWtsFile`, `parseWhisperJson`): `{start, end, text}`.
The source field `end` is a Lean keyword and is called `stop` here. -/
structure TimedUnit where
  start : ℚ
  stop : ℚ
  text : String
deriving DecidableEq, Repr

/-- One caption event scheduled in output-relative time, i.e. one
`Dialogue:` line of the generated subtitle document (times kept as exact
rationals; `formatAssSeconds` rendering is outside the claims). -/
structure CaptionEvent where
  start : ℚ
  stop : ℚ
  text : String
deriving DecidableEq, Repr

/-- The selection window `{start, duration}` returned by
`selectBestMoment` in `processor.cjs` line 83. -/
structure Selection where
  start : ℚ
  duration : ℚ
deriving DecidableEq, Repr

/-- The settings object fields consumed by `processor.cjs`.  Every field a
user may omit is an `Option`; the JavaScript defaulting idiom `x || d` is
applied at each use site exactly where the source applies it. -/
structure Settings where
  targetDuration : Option ℚ := none
  captionStyle : Option String := none
  captionSize : Option Nat := none
  captionPosition : Option String := none
  captionMaxWords : Option Nat := none
  captionMaxChars : Option Nat := none
  captionSpeed : Option ℚ := none
  minWordDurationMs : Option ℚ := none
  burnCaptions : Bool := false
  wordLevelCaptions : Bool := false
deriving DecidableEq, Repr

/-- `selectBestMoment(inputPath, settings)`, `processor.cjs` lines 81-84:
returns `{ start: 0, duration: settings?.targetDuration || 30 }`.  Pure
and deterministic by construction. -/
def selectBestMoment (_inputPath : String) (_settings : Option Settings) : Selection :=
  { start := 0, duration := orFalsy (_settings.bind Settings.targetDuration) 30 }

/-- Whitespace tokenizer: the semantics of
`text.trim().split(/\s+/).filter(Boolean)` at `processor.cjs` line 97,
implemented as a single scan over the characters.  `acc` holds the
characters of the word currently being read, in reverse. -/
def wordsAux : List Char → List Char → List String
  | [], acc => if acc.isEmpty then [] else [String.mk acc.reverse]
  | c :: cs, acc =>
    if c.isWhitespace then
      if acc.isEmpty then wordsAux cs [] else String.mk acc.reverse :: wordsAux cs []
    else
      wordsAux cs (c :: acc)

/-- The whitespace-separated tokens of a string: no token is empty and
leading or trailing whitespace is dropped, matching
`text.trim().split(/\s+/).filter(Boolean)`. -/
def tokenize (s : String) : List String :=
  wordsAux s.data []

/-- JavaScript `Array.prototype.join(" ")`. -/
def joinSpace : List String → String
  | [] => ""
  | [w] => w
  | w :: ws => w ++ " " ++ joinSpace ws

/-- The length of a chunk as rendered, i.e. of its words joined by single
spaces; the quantity the source tracks in `currentLen`. -/
def renderedLen (ws : List String) : Nat :=
  (joinSpace ws).length

/-- The loop of `splitCaptionText`, `processor.cjs` lines 103-117, kept at
the level of word lists: `chunks` are the chunks already pushed, `current`
the chunk being accumulated, `currentLen` the tracked rendered length of
`current`.  The source pushes `current.join(" ")`; here the join is applied
afterwards by `splitCaptionText`, which is equivalent. -/
def chunkLoop (maxWords maxChars : Nat) :
    List String → List (List String) → List String → Nat → List (List String)
  | [], chunks, current, _ =>
    if current.isEmpty then chunks else chunks ++ [current]
  | word :: rest, chunks, current, currentLen =>
    let nextLen := currentLen + (if current.isEmpty then 0 else 1) + word.length
    if (maxWords ≠ 0 ∧ maxWords ≤ current.length) ∨ (maxChars ≠ 0 ∧ maxChars < nextLen) then
      chunkLoop maxWords maxChars rest (chunks ++ [current]) [word] word.length
    else
      chunkLoop maxWords maxChars rest chunks (current ++ [word]) nextLen

/-- `splitCaptionText`, `processor.cjs` lines 96-119, at the level of word
lists (each returned chunk is the list of words the source would join). -/
def splitCaptionWords (text : String) (maxWords maxChars : Nat) : List (List String) :=
  let words := tokenize text
  if words.isEmpty then [] else chunkLoop maxWords maxChars words [] [] 0

/-- `splitCaptionText(text, maxWords, maxChars)`: the chunk strings, each
chunk being its words joined by single spaces. -/
def splitCaptionText (text : String) (maxWords maxChars : Nat) : List String :=
  (splitCaptionWords text maxWords maxChars).map joinSpace

/-- `100 / Number(settings?.captionSpeed || 100)`: the speed time-scale
factor, written identically at `processor.cjs` line 295
(`buildAssFromWordList`) and line 398 (`buildAssFromSrt`). -/
def timeScale (settings : Settings) : ℚ :=
  100 / orFalsy settings.captionSpeed 100

/-- `Number(settings?.minWordDurationMs || 120) / 1000`: the minimum word
duration in seconds, `processor.cjs` line 296 (word-level path only). -/
def minWordSec (settings : Settings) : ℚ :=
  orFalsy settings.minWordDurationMs 120 / 1000

/-- The closure mapped over the kept words in `buildAssFromWordList`,
`processor.cjs` lines 305-316: clip to the window, shift to
window-relative time, speed-scale, offset, clamp at 0, and floor the
duration at `minWordSec`. -/
def wordEvent (settings : Settings) (selectionStart selectionEnd offsetSec : ℚ)
    (word : TimedUnit) : CaptionEvent :=
  let clippedStart := max word.start selectionStart
  let clippedEnd := if 0 < selectionEnd then min word.stop selectionEnd else word.stop
  let adjustedStart := max ((clippedStart - selectionStart) * timeScale settings + offsetSec) 0
  let adjustedEnd := max ((clippedEnd - selectionStart) * timeScale settings + offsetSec) 0
  if adjustedEnd - adjustedStart < minWordSec settings then
    { start := adjustedStart, stop := adjustedStart + minWordSec settings, text := word.text }
  else
    { start := adjustedStart, stop := adjustedEnd, text := word.text }

/-- The caption events emitted by `buildAssFromWordList`, `processor.cjs`
lines 292-317: the filter and map over `words` that produce one
`Dialogue:` line each (header emission, time formatting and file output
carry no further timing logic).  `selection` is optional because the
source reads it through optional chaining (`selection?.start || 0`). -/
def buildAssWordEvents (words : List TimedUnit) (settings : Settings)
    (selection : Option Selection) (offsetSec : ℚ) : List CaptionEvent :=
  let selectionStart := orFalsy (selection.map Selection.start) 0
  let selectionEnd := selectionStart + orFalsy (selection.map Selection.duration) 0
  (words.filter fun word =>
      if 0 < selectionEnd ∧ (word.stop ≤ selectionStart ∨ selectionEnd ≤ word.start) then
        false
      else
        true).map (wordEvent settings selectionStart selectionEnd offsetSec)

/-- One timestamp of a line-subtitle block, as matched by the regular
expression of `parseSrtTime`, `processor.cjs` line 87:
hours, minutes, seconds, milliseconds. -/
structure SrtTime where
  h : Nat
  m : Nat
  s : Nat
  ms : Nat
deriving DecidableEq, Repr

/-- The composition of `parseSrtTime` (lines 86-94, truncates milliseconds
to centiseconds via `Math.floor(ms / 10)`) and `parseAssSeconds`
(lines 121-129, `h*3600 + m*60 + s + centis/100`). -/
def srtTimeToSeconds (t : SrtTime) : ℚ :=
  t.h * 3600 + t.m * 60 + t.s + (t.ms / 10 : Nat) / 100

/-- One parsed line-subtitle block of `buildAssFromSrt`: the matched time
range and the cleaned text (the non-index, non-time lines joined by
spaces, style-override markers stripped, trimmed - the string computed at
`processor.cjs` line 420). -/
structure SrtBlock where
  startT : SrtTime
  stopT : SrtTime
  text : String
deriving DecidableEq, Repr

/-- `chunks.map((chunk, index) => ...)` of `processor.cjs` lines 437-441,
with the running index made explicit: chunk `index` is scheduled on
`[adjustedStart + slice*index, adjustedStart + slice*(index+1)]`. -/
def sliceEventsFrom (adjustedStart slice : ℚ) (index : Nat) :
    List String → List CaptionEvent
  | [] => []
  | chunk :: rest =>
    { start := adjustedStart + slice * index,
      stop := adjustedStart + slice * (index + 1),
      text := chunk } :: sliceEventsFrom adjustedStart slice (index + 1) rest

/-- The caption events `buildAssFromSrt` emits for one subtitle block:
`processor.cjs` lines 401-441 (drop blocks outside the window, clip to the
window, chunk the text, remap times, and slice multi-chunk blocks into
equal-width events). -/
def srtBlockEvents (settings : Settings) (selection : Option Selection)
    (offsetSec : ℚ) (b : SrtBlock) : List CaptionEvent :=
  let maxWords := orFalsyNat settings.captionMaxWords 6
  let maxChars := orFalsyNat settings.captionMaxChars 36
  let selectionStart := orFalsy (selection.map Selection.start) 0
  let selectionEnd := selectionStart + orFalsy (selection.map Selection.duration) 0
  let startSec := srtTimeToSeconds b.startT
  let endSec := srtTimeToSeconds b.stopT
  if 0 < selectionEnd ∧ (endSec ≤ selectionStart ∨ selectionEnd ≤ startSec) then
    []
  else
    let clippedStart := max startSec selectionStart
    let clippedEnd := if 0 < selectionEnd then min endSec selectionEnd else endSec
    if clippedEnd ≤ clippedStart then
      []
    else if b.text = "" then
      []
    else
      let chunks := splitCaptionText b.text maxWords maxChars
      let adjustedStart := max ((clippedStart - selectionStart) * timeScale settings + offsetSec) 0
      let adjustedEnd := max ((clippedEnd - selectionStart) * timeScale settings + offsetSec) 0
      if chunks.length ≤ 1 then
        [{ start := adjustedStart, stop := adjustedEnd, text := b.text }]
      else
        let total := max (adjustedEnd - adjustedStart) (1 / 10)
        let slice := total / (chunks.length : ℚ)
        sliceEventsFrom adjustedStart slice 0 chunks

/-- All caption events of `buildAssFromSrt` over the parsed blocks
(`blocks.map(...).flatMap(...)`, lines 399-443). -/
def buildSrtEvents (settings : Settings) (selection : Option Selection)
    (offsetSec : ℚ) (blocks : List SrtBlock) : List CaptionEvent :=
  blocks.flatMap (srtBlockEvents settings selection offsetSec)

/-- A style bundle of the `styles` object literal that appears identically
in `buildAssFromWordList` (`processor.cjs` lines 237-274) and
`buildAssFromSrt` (lines 337-374). -/
structure StyleProfile where
  font : String
  size : Nat
  primary : String
  outline : String
  shadow : Nat
  borderStyle : Nat
  outlineSize : Nat
deriving DecidableEq, Repr

/-- The `clean` preset. -/
def cleanStyle (fontSize : Nat) : StyleProfile :=
  { font := "Segoe UI Semibold", size := fontSize, primary := "&H00FFFFFF",
    outline := "&H00111111", shadow := 1, borderStyle := 1, outlineSize := 3 }

/-- The `neon` preset. -/
def neonStyle (fontSize : Nat) : StyleProfile :=
  { font := "Space Grotesk", size := fontSize, primary := "&H00E8FFF5",
    outline := "&H0031C9A9", shadow := 2, borderStyle := 1, outlineSize := 4 }

/-- The `boxed` preset. -/
def boxedStyle (fontSize : Nat) : StyleProfile :=
  { font := "IBM Plex Sans", size := fontSize, primary := "&H00FFFFFF",
    outline := "&H00111111", shadow := 0, borderStyle := 3, outlineSize := 3 }

/-- The `punchy` preset (`size: fontSize + 4`). -/
def punchyStyle (fontSize : Nat) : StyleProfile :=
  { font := "Impact", size := fontSize + 4, primary := "&H00FFFFFF",
    outline := "&H00000000", shadow := 2, borderStyle := 1, outlineSize := 4 }

/-- The property names a JavaScript bracket access resolves on a plain
object literal through its prototype, `Object.prototype`: for each of
these, `styles[name]` yields a truthy inherited member (a function, or
the prototype object itself for `__proto__`), not `undefined`. -/
def objectProtoMembers : List String :=
  ["constructor", "hasOwnProperty", "isPrototypeOf", "propertyIsEnumerable",
   "toLocaleString", "toString", "valueOf",
   "__proto__", "__defineGetter__", "__defineSetter__", "__lookupGetter__",
   "__lookupSetter__"]

/-- The possible values of the JavaScript access `styles[style]` on the
`styles` object literal: one of the four own presets, a truthy member
inherited from `Object.prototype`, or `undefined`. -/
inductive StyleAccess where
  | preset (profile : StyleProfile)
  | inherited (name : String)
  | undef
deriving DecidableEq, Repr

/-- The property access `styles[style]` on the four-key `styles` object
literal of `processor.cjs` lines 237-274 and 337-374: own keys first,
then the `Object.prototype` chain, `undefined` otherwise. -/
def styleLookup (fontSize : Nat) (name : String) : StyleAccess :=
  if name = "clean" then StyleAccess.preset (cleanStyle fontSize)
  else if name = "neon" then StyleAccess.preset (neonStyle fontSize)
  else if name = "boxed" then StyleAccess.preset (boxedStyle fontSize)
  else if name = "punchy" then StyleAccess.preset (punchyStyle fontSize)
  else if name ∈ objectProtoMembers then StyleAccess.inherited name
  else StyleAccess.undef

/-- `const chosen = styles[style] || styles.clean` (`processor.cjs`
line 276 and line 376).  Of the possible access results only `undefined`
is falsy, so only it falls back to the `clean` preset; a truthy member
inherited from `Object.prototype` short-circuits the `||` and is kept. -/
def resolveStyle (fontSize : Nat) (name : String) : StyleAccess :=
  match styleLookup fontSize name with
  | StyleAccess.undef => StyleAccess.preset (cleanStyle fontSize)
  | v => v

/-- `Math.max(...words.map(w => w.end))` over a parsed word list (the
guard on an empty list belongs to the callers). -/
def maxEndOf : List TimedUnit → ℚ
  | [] => 0
  | w :: ws => ws.foldl (fun acc u => max acc u.stop) w.stop

/-- The timestamp-unit rescaling shared verbatim by `parseWtsFile`
(`processor.cjs` lines 184-193) and `parseWhisperJson` (lines 221-228):
if no unit ends after 1000 the values are kept, otherwise every value is
multiplied by 0.001.  The text cleanup the source performs in the same
`map` never touches the timestamps. -/
def scaleByMaxEnd (words : List TimedUnit) : List TimedUnit :=
  if words.isEmpty then []
  else
    let scale : ℚ := if 1000 < maxEndOf words then 1 / 1000 else 1
    words.map fun w => { w with start := w.start * scale, stop := w.stop * scale }

/-- The result object of `transcribeWithWhisper` as read by `processVideo`
(`processor.cjs` lines 485-487): each artifact path may be absent. -/
structure WhisperResult where
  srtPath : Option String
  wtsPath : Option String
  jsonPath : Option String
  wavPath : Option String
deriving DecidableEq, Repr

/-- How one invocation of the whisper driver (`transcribeWithWhisper`,
second document of `src/electron/main.cjs`, lines 553-598) plays out. -/
inductive WhisperRun where
  /-- `whisper-cli` exits 0 and the `.srt` is found (directly or via the
  `findLatestSrt` fallback search of lines 589-595). -/
  | ok
  /-- `ensureWhisperBinary` or `ensureWhisperModel` (lines 561-562)
  throws: provisioning fails before any run artifact exists. -/
  | provisioningFails
  /-- `convertToWav` (line 565) rejects with
  "Failed to convert audio to WAV": the WAV was not produced (a partial
  file a failed encoder run may leave is not modelled). -/
  | convertFails
  /-- `runWhisperCli` (line 578) rejects because `whisper-cli` exited
  non-zero (lines 479-493): the WAV already exists on disk. -/
  | engineFails
  /-- `whisper-cli` exits 0 but no `.srt` exists even after the fallback
  search: line 594 throws "Whisper did not output an SRT file" with the
  WAV (and any word-timing artifacts) already on disk. -/
  | srtMissing
deriving DecidableEq, Repr

/-- The external-collaborator behaviour of one `processVideo` run: how
the whisper driver run ends, which optional word-timing artifacts the
engine produces, and whether the encoder invocation fails. -/
structure RunCfg where
  burnCaptions : Bool
  whisper : WhisperRun
  producesWts : Bool
  producesJson : Bool
  ffmpegFails : Bool
deriving DecidableEq, Repr

/-- Whether `fs.unlinkSync` raises for a given path: the file-system
behaviour `safeDelete` has to tolerate. -/
def FsOracle : Type := String → Bool

/-- The artifact lifecycle of `transcribeWithWhisper`, the whisper driver
in the second document of `src/electron/main.cjs` (lines 553-598), which
`processor.cjs` line 5 requires as `./whisper.cjs`.  In order: provision
the binary and model (lines 561-562; a failure there precedes every run
artifact), convert the selection window to a 16 kHz mono WAV in the audio
directory (line 565, creating the WAV), run `whisper-cli` with `-osrt`
and optionally `-owts -ojf` (lines 567-578; a non-zero exit rejects with
the WAV already on disk), then resolve the output paths with fallback
searches (lines 580-597): when no `.srt` exists anywhere it throws with
the WAV and any word-timing artifacts already written, and on success it
returns a result whose `srtPath` is always present.  Returns the
artifacts created on disk together with the outcome. -/
def transcribeWithWhisper (cfg : RunCfg) : List String × Except String WhisperResult :=
  match cfg.whisper with
  | WhisperRun.provisioningFails =>
    ([], Except.error "Whisper binary not found after download (whisper-cli missing).")
  | WhisperRun.convertFails =>
    ([], Except.error "Failed to convert audio to WAV")
  | WhisperRun.engineFails =>
    (["audio.wav"], Except.error "whisper-cli exited with code 1")
  | WhisperRun.srtMissing =>
    (["audio.wav"]
        ++ (if cfg.producesWts then ["caps.wts"] else [])
        ++ (if cfg.producesJson then ["caps.json"] else []),
      Except.error "Whisper did not output an SRT file")
  | WhisperRun.ok =>
    (["audio.wav", "caps.srt"]
        ++ (if cfg.producesWts then ["caps.wts"] else [])
        ++ (if cfg.producesJson then ["caps.json"] else []),
      Except.ok
        { srtPath := some "caps.srt",
          wtsPath := if cfg.producesWts then some "caps.wts" else none,
          jsonPath := if cfg.producesJson then some "caps.json" else none,
          wavPath := some "audio.wav" })

/-- `safeDelete`, `processor.cjs` lines 584-592: `fs.unlinkSync` wrapped
in try/catch, every deletion error swallowed.  Returns whether the file
was actually removed; no error ever escapes. -/
def safeDelete (o : FsOracle) (p : String) : Bool :=
  if o p then false else true

/-- The contents of an `Option` path as a list (a present path versus the
`null` the source checks with `if (...)` before each `safeDelete`). -/
def optPath : Option String → List String
  | none => []
  | some p => [p]

/-- The outcome of one `processVideo` run as far as artifact lifecycle is
concerned. -/
structure RunOutcome where
  result : Except String String
  created : List String
  attempted : List String
  removed : List String
deriving Repr

/-- `const filterChain = [...]` then `try { ffmpeg } catch { throw }`
outcome of `processor.cjs` lines 567-571. -/
def ffmpegResult (cfg : RunCfg) : Except String String :=
  if cfg.ffmpegFails then
    Except.error "FFmpeg failed. Install FFmpeg or bundle ffmpeg-static."
  else
    Except.ok "short.mp4"

/-- The artifact lifecycle of `processVideo`, `processor.cjs`
lines 450-582: transcription (when captions are requested), the throw when
no line-subtitle artifact came back (line 503), subtitle-document
construction (the word-level fallback chain of lines 509-531 always ends
in a built `.ass` once a subtitle path exists), and the
`try { ffmpeg } finally { safeDelete * 5 }` of lines 567-578.
`created` are the temporary artifacts written during the run, `attempted`
the paths passed to `safeDelete`, `removed` those actually unlinked. -/
def processVideoRun (cfg : RunCfg) (o : FsOracle) : RunOutcome :=
  if !cfg.burnCaptions then
    { result := ffmpegResult cfg, created := [], attempted := [], removed := [] }
  else
    match transcribeWithWhisper cfg with
    | (created, Except.error msg) =>
      { result := Except.error ("Whisper failed: " ++ msg),
        created := created, attempted := [], removed := [] }
    | (created, Except.ok r) =>
      match r.srtPath with
      | none =>
        { result := Except.error "Whisper captions not found. Cannot burn subtitles.",
          created := created, attempted := [], removed := [] }
      | some captionsPath =>
        let assPath := "captions.ass"
        let created := created ++ [assPath]
        let attempted := [captionsPath, assPath]
            ++ optPath r.wtsPath ++ optPath r.jsonPath ++ optPath r.wavPath
        { result := ffmpegResult cfg,
          created := created,
          attempted := attempted,
          removed := attempted.filter (safeDelete o) }

lemma joinSpace_cons_cons (a b : String) (t : List String) :
    joinSpace (a :: b :: t) = a ++ " " ++ joinSpace (b :: t) := rfl

lemma renderedLen_append_one (l : List String) (w : String) :
    renderedLen (l ++ [w]) = renderedLen l + (if l.isEmpty then 0 else 1) + w.length := by
  have hsp : (" ").length = 1 := rfl
  induction l with
  | nil => simp [renderedLen, joinSpace]
  | cons a t ih =>
    cases t with
    | nil =>
      simp [renderedLen, joinSpace, String.length_append, hsp]
    | cons b t' =>
      have h2 : (b :: t') ++ [w] = b :: (t' ++ [w]) := rfl
      have h3 : (a :: b :: t') ++ [w] = a :: b :: (t' ++ [w]) := rfl
      unfold renderedLen at ih ⊢
      rw [h3, joinSpace_cons_cons, joinSpace_cons_cons (a := a)]
      rw [h2] at ih
      simp only [List.isEmpty_cons, String.length_append, hsp] at ih ⊢
      simp only [if_neg (by simp : ¬((false : Bool) = true))] at ih ⊢
      omega

lemma joinSpace_append (l₁ l₂ : List String) (h₁ : l₁ ≠ []) (h₂ : l₂ ≠ []) :
    joinSpace (l₁ ++ l₂) = joinSpace l₁ ++ " " ++ joinSpace l₂ := by
  induction l₁ with
  | nil => exact absurd rfl h₁
  | cons a t ih =>
    cases t with
    | nil =>
      cases l₂ with
      | nil => exact absurd rfl h₂
      | cons b t' => rw [List.singleton_append, joinSpace_cons_cons]; rfl
    | cons b t' =>
      have h3 : (a :: b :: t') ++ l₂ = a :: b :: (t' ++ l₂) := rfl
      have h4 : b :: (t' ++ l₂) = (b :: t') ++ l₂ := rfl
      rw [h3, joinSpace_cons_cons, h4, ih (by simp), joinSpace_cons_cons]
      simp [String.append_assoc]

lemma joinSpace_map_flatten (cs : List (List String)) (h : ∀ c ∈ cs, c ≠ []) :
    joinSpace (cs.map joinSpace) = joinSpace cs.flatten := by
  induction cs with
  | nil => rfl
  | cons c rest ih =>
    cases rest with
    | nil => simp [joinSpace]
    | cons c' rest' =>
      have hc : c ≠ [] := h c (by simp)
      have hrest : ∀ x ∈ c' :: rest', x ≠ [] := fun x hx => h x (by simp [hx])
      have hflat : (c' :: rest').flatten ≠ [] := by
        have hc' : c' ≠ [] := hrest c' (by simp)
        cases c' with
        | nil => exact absurd rfl hc'
        | cons y ys => simp [List.flatten_cons]
      rw [List.map_cons, List.flatten_cons]
      have hmap : (c' :: rest').map joinSpace = joinSpace c' :: rest'.map joinSpace := rfl
      rw [hmap, joinSpace_cons_cons, ← hmap, ih hrest,
        joinSpace_append c ((c' :: rest').flatten) hc hflat]

lemma chunkLoop_flatten (maxWords maxChars : Nat) :
    ∀ (ws : List String) (chunks : List (List String)) (current : List String) (len : Nat),
      (chunkLoop maxWords maxChars ws chunks current len).flatten
        = chunks.flatten ++ current ++ ws := by
  intro ws
  induction ws with
  | nil =>
    intro chunks current len
    simp only [chunkLoop]
    split
    · rename_i hc
      simp [List.isEmpty_iff.mp hc]
    · simp
  | cons word rest ih =>
    intro chunks current len
    simp only [chunkLoop]
    split <;> split <;> (rw [ih]; simp)

lemma chunkLoop_chunks_ne (maxWords maxChars : Nat) :
    ∀ (ws : List String) (chunks : List (List String)) (current : List String) (len : Nat),
      current ≠ [] → (∀ c ∈ chunks, c ≠ []) →
      ∀ c ∈ chunkLoop maxWords maxChars ws chunks current len, c ≠ [] := by
  intro ws
  induction ws with
  | nil =>
    intro chunks current len hcur hchunks c hc
    simp only [chunkLoop] at hc
    split at hc
    · exact hchunks c hc
    · rcases List.mem_append.mp hc with h | h
      · exact hchunks c h
      · simp at h; exact h ▸ hcur
  | cons word rest ih =>
    intro chunks current len hcur hchunks c hc
    simp only [chunkLoop] at hc
    split at hc <;> split at hc
    all_goals first
      | · refine ih _ _ _ (by simp) ?_ c hc
          intro d hd
          rcases List.mem_append.mp hd with h | h
          · exact hchunks d h
          · simp at h; exact h ▸ hcur
      | exact ih _ _ _ (by simp) hchunks c hc

lemma chunkLoop_bounded (maxWords maxChars : Nat)
    (hmw : 1 ≤ maxWords) (hmc : 1 ≤ maxChars) :
    ∀ (ws : List String) (chunks : List (List String)) (current : List String) (len : Nat),
      len = renderedLen current →
      current.length ≤ maxWords →
      (current.length ≠ 1 → renderedLen current ≤ maxChars) →
      (∀ c ∈ chunks, c.length ≤ maxWords ∧ (c.length ≠ 1 → renderedLen c ≤ maxChars)) →
      ∀ c ∈ chunkLoop maxWords maxChars ws chunks current len,
        c.length ≤ maxWords ∧ (c.length ≠ 1 → renderedLen c ≤ maxChars) := by
  intro ws
  induction ws with
  | nil =>
    intro chunks current len hlen hcw hcc hchunks c hc
    simp only [chunkLoop] at hc
    split at hc
    · exact hchunks c hc
    · rcases List.mem_append.mp hc with h | h
      · exact hchunks c h
      · simp at h
        exact h ▸ ⟨hcw, hcc⟩
  | cons word rest ih =>
    intro chunks current len hlen hcw hcc hchunks c hc
    simp only [chunkLoop] at hc
    by_cases hcond :
        (maxWords ≠ 0 ∧ maxWords ≤ current.length) ∨
          (maxChars ≠ 0 ∧ maxChars < len + (if current.isEmpty then 0 else 1) + word.length)
    · rw [if_pos hcond] at hc
      refine ih _ _ _ rfl (by simpa using hmw) (by simp) ?_ c hc
      intro d hd
      rcases List.mem_append.mp hd with h | h
      · exact hchunks d h
      · simp at h
        exact h ▸ ⟨hcw, hcc⟩
    · rw [if_neg hcond] at hc
      push_neg at hcond
      obtain ⟨h1, h2⟩ := hcond
      have hlt : current.length < maxWords := by
        have := h1 (by omega)
        omega
      have hle : len + (if current.isEmpty then 0 else 1) + word.length ≤ maxChars := by
        have := h2 (by omega)
        omega
      have hren : renderedLen (current ++ [word])
          = len + (if current.isEmpty then 0 else 1) + word.length := by
        rw [renderedLen_append_one, hlen]
      refine ih _ _ _ hren.symm (by simp; omega) ?_ hchunks c hc
      intro _
      rw [hren]
      exact hle

lemma wordsAux_all_whitespace :
    ∀ cs : List Char, (∀ c ∈ cs, c.isWhitespace) → wordsAux cs [] = [] := by
  intro cs
  induction cs with
  | nil => intro _; rfl
  | cons c rest ih =>
    intro h
    simp only [wordsAux, if_pos (h c (by simp)), List.isEmpty_nil, if_pos rfl]
    exact ih fun d hd => h d (by simp [hd])

lemma splitCaptionWords_flatten (text : String) (mw mc : Nat) :
    (splitCaptionWords text mw mc).flatten = tokenize text := by
  simp only [splitCaptionWords]
  by_cases h : (tokenize text).isEmpty
  · simp [h, List.isEmpty_iff.mp h]
  · simp [h, chunkLoop_flatten]

lemma splitCaptionWords_first_step (text : String) (mw mc : Nat)
    (hmw : 1 ≤ mw) (w : String) (rest : List String)
    (htok : tokenize text = w :: rest) (hw : w.length ≤ mc) :
    splitCaptionWords text mw mc = chunkLoop mw mc rest [] [w] w.length := by
  simp only [splitCaptionWords, htok]
  rw [if_neg (by simp)]
  simp only [chunkLoop, List.isEmpty_nil, List.length_nil, List.nil_append]
  rw [if_neg]
  · simp
  · rintro (⟨h1, h2⟩ | ⟨h1, h2⟩) <;> simp at h2 <;> omega

lemma splitCaptionWords_chunks_ne (text : String) (mw mc : Nat)
    (hmw : 1 ≤ mw)
    (hhead : ∀ w ∈ (tokenize text).take 1, w.length ≤ mc) :
    ∀ c ∈ splitCaptionWords text mw mc, c ≠ [] := by
  cases htok : tokenize text with
  | nil =>
    simp [splitCaptionWords, htok]
  | cons w rest =>
    have hw : w.length ≤ mc := hhead w (by rw [htok]; simp)
    rw [splitCaptionWords_first_step text mw mc hmw w rest htok hw]
    exact chunkLoop_chunks_ne mw mc rest [] [w] w.length (by simp) (by simp)

lemma sliceEventsFrom_length (a sl : ℚ) :
    ∀ (cs : List String) (i : Nat), (sliceEventsFrom a sl i cs).length = cs.length := by
  intro cs
  induction cs with
  | nil => intro i; rfl
  | cons c rest ih => intro i; simp [sliceEventsFrom, ih]

lemma sliceEventsFrom_getD (a sl : ℚ) :
    ∀ (cs : List String) (i j : Nat), j < cs.length →
      (sliceEventsFrom a sl i cs).getD j { start := 0, stop := 0, text := "" }
        = { start := a + sl * ((i + j : Nat) : ℚ),
            stop := a + sl * (((i + j : Nat) : ℚ) + 1),
            text := cs.getD j "" } := by
  intro cs
  induction cs with
  | nil => intro i j hj; simp at hj
  | cons c rest ih =>
    intro i j hj
    cases j with
    | zero => simp [sliceEventsFrom]
    | succ j' =>
      have hj' : j' < rest.length := by simpa using hj
      have h1 : (sliceEventsFrom a sl i (c :: rest)).getD (j' + 1)
            { start := 0, stop := 0, text := "" }
          = (sliceEventsFrom a sl (i + 1) rest).getD j' { start := 0, stop := 0, text := "" } := by
        simp [sliceEventsFrom]
      rw [h1, ih (i + 1) j' hj']
      have h2 : (i + 1) + j' = i + (j' + 1) := by omega
      simp [h2]

lemma sliceEventsFrom_start_nonneg (a sl : ℚ) (ha : 0 ≤ a) (hsl : 0 ≤ sl) :
    ∀ (cs : List String) (i : Nat), ∀ e ∈ sliceEventsFrom a sl i cs, 0 ≤ e.start := by
  intro cs
  induction cs with
  | nil => intro i e he; simp [sliceEventsFrom] at he
  | cons c rest ih =>
    intro i e he
    simp only [sliceEventsFrom, List.mem_cons] at he
    rcases he with he | he
    · rw [he]
      exact add_nonneg ha (mul_nonneg hsl (Nat.cast_nonneg i))
    · exact ih (i + 1) e he

lemma srtBlockEvents_start_nonneg (settings : Settings) (selection : Option Selection)
    (offsetSec : ℚ) (b : SrtBlock) :
    ∀ e ∈ srtBlockEvents settings selection offsetSec b, 0 ≤ e.start := by
  intro e he
  simp only [srtBlockEvents] at he
  split_ifs at he
  all_goals first
    | exact absurd he (List.not_mem_nil e)
    | (rw [List.mem_singleton] at he
       subst he
       exact le_max_right _ 0)
    | (refine sliceEventsFrom_start_nonneg _ _ (le_max_right _ 0) ?_ _ 0 e he
       exact div_nonneg (le_trans (by norm_num) (le_max_right _ (1 / 10))) (Nat.cast_nonneg _))

lemma wordEvent_inv (settings : Settings) (a b off : ℚ) (w : TimedUnit) :
    0 ≤ (wordEvent settings a b off w).start ∧
      minWordSec settings ≤ (wordEvent settings a b off w).stop
        - (wordEvent settings a b off w).start := by
  unfold wordEvent
  set cE := if 0 < b then min w.stop b else w.stop with hcE
  set aS := max ((max w.start a - a) * timeScale settings + off) 0 with haS
  set aE := max ((cE - a) * timeScale settings + off) 0 with haE
  by_cases h : aE - aS < minWordSec settings
  · rw [if_pos h]
    refine ⟨haS ▸ le_max_right _ 0, ?_⟩
    simp
  · rw [if_neg h]
    exact ⟨haS ▸ le_max_right _ 0, not_lt.mp h⟩

/-- C1 (amended): every caption event emitted by the word-level remapping
path (`buildAssFromWordList`) has `start ≥ 0` and
`end - start ≥ minWordSec`, for any settings, selection window and offset;
every caption event emitted by the line-subtitle path (`buildAssFromSrt`),
including the chunk-sliced events, has `start ≥ 0`.  The claim's
minimum-duration floor does NOT hold on the line-subtitle path, which
never consults `minWordDurationMs` (counterexample
`srt_event_below_min_duration`). -/
theorem captionEvents_nonneg_and_floor :
    (∀ (words : List TimedUnit) (settings : Settings) (selection : Option Selection)
        (offsetSec : ℚ), ∀ e ∈ buildAssWordEvents words settings selection offsetSec,
        0 ≤ e.start ∧ minWordSec settings ≤ e.stop - e.start) ∧
    (∀ (settings : Settings) (selection : Option Selection) (offsetSec : ℚ)
        (blocks : List SrtBlock), ∀ e ∈ buildSrtEvents settings selection offsetSec blocks,
        0 ≤ e.start) := by
  constructor
  · intro words settings selection offsetSec e he
    simp only [buildAssWordEvents, List.mem_map, List.mem_filter] at he
    obtain ⟨w, hw, rfl⟩ := he
    exact wordEvent_inv settings _ _ offsetSec w
  · intro settings selection offsetSec blocks e he
    simp only [buildSrtEvents, List.mem_flatMap] at he
    obtain ⟨b, _, he⟩ := he
    exact srtBlockEvents_start_nonneg settings selection offsetSec b e he

/-- C1 witness: a concrete word event gets the default 0.12 s floor. -/
theorem captionEvents_nonneg_and_floor_witness :
    0 ≤ (CaptionEvent.mk 0 (3 / 25) "hi").start ∧
      minWordSec {} ≤ (CaptionEvent.mk 0 (3 / 25) "hi").stop
        - (CaptionEvent.mk 0 (3 / 25) "hi").start :=
  captionEvents_nonneg_and_floor.1 [⟨0, 1 / 20, "hi"⟩] {} none 0
    (CaptionEvent.mk 0 (3 / 25) "hi")
    (by norm_num [buildAssWordEvents, wordEvent, timeScale, minWordSec, orFalsy])

/-- C1 counterexample: a 50 ms line-subtitle block inside the window
produces, with default settings, an event of duration 1/20 s, strictly
below the default minimum word duration 3/25 s = 120 ms; the line-subtitle
path applies no duration floor. -/
theorem srt_event_below_min_duration :
    srtBlockEvents {} (some ⟨0, 30⟩) 0 ⟨⟨0, 0, 0, 0⟩, ⟨0, 0, 0, 50⟩, "hi"⟩
        = [{ start := 0, stop := 1 / 20, text := "hi" }] ∧
      ¬ minWordSec {} ≤ (1 / 20 : ℚ) - 0 := by
  constructor
  · norm_num [srtBlockEvents, timeScale, minWordSec, orFalsy, orFalsyNat, srtTimeToSeconds,
      splitCaptionText, splitCaptionWords, tokenize, wordsAux, chunkLoop]
    simp +decide
  · norm_num [minWordSec, orFalsy]

/-- C2 (amended): for every input text and positive `maxWords` and
`maxChars`, every chunk produced by `splitCaptionText` contains at most
`maxWords` words, and every chunk that is not a single word has rendered
length (words joined by single spaces) at most `maxChars`.  The claim's
unconditional `maxChars` bound fails: a single word longer than `maxChars`
is emitted as its own chunk at full length (counterexample
`splitCaption_overlong_word_chunk`). -/
theorem splitCaption_chunk_bounds (text : String) (maxWords maxChars : Nat)
    (hmw : 1 ≤ maxWords) (hmc : 1 ≤ maxChars) :
    ∀ c ∈ splitCaptionWords text maxWords maxChars,
      c.length ≤ maxWords ∧ (c.length ≠ 1 → renderedLen c ≤ maxChars) := by
  intro c hc
  by_cases h : (tokenize text).isEmpty
  · simp [splitCaptionWords, h] at hc
  · simp only [splitCaptionWords, if_neg h] at hc
    exact chunkLoop_bounded maxWords maxChars hmw hmc _ [] [] 0 rfl (by simp)
      (by simp [renderedLen, joinSpace]) (by simp) c hc

/-- C2 witness: a concrete two-word chunk respects both bounds. -/
theorem splitCaption_chunk_bounds_witness :
    (["hello", "world"] : List String).length ≤ 2 ∧
      ((["hello", "world"] : List String).length ≠ 1 → renderedLen ["hello", "world"] ≤ 36) :=
  splitCaption_chunk_bounds "hello world" 2 36 (by decide) (by decide) ["hello", "world"]
    (by decide)

/-- C2 counterexample: with positive `maxWords = 6` and `maxChars = 3`,
the input "abcd" produces the chunk "abcd" whose rendered length is
4 > 3. -/
theorem splitCaption_overlong_word_chunk :
    "abcd" ∈ splitCaptionText "abcd" 6 3 ∧ ¬ (joinSpace (tokenize "abcd")).length ≤ 3 := by
  decide

/-- C3 (amended): the chunker always returns at least one chunk when the
input has a non-whitespace token, and the chunks' word lists concatenate
exactly to the input's token list; joining the chunk strings with single
spaces reproduces the whitespace-normalized input whenever the first token
is no longer than `maxChars`.  The claim's unconditional join identity
fails: a first token longer than `maxChars` makes the source push one
empty chunk first, so the join gains a leading space (counterexample
`splitCaption_rejoin_fails_on_overlong_first_word`). -/
theorem splitCaption_rejoin (text : String) (maxWords maxChars : Nat) :
    ((splitCaptionWords text maxWords maxChars).flatten = tokenize text) ∧
    (tokenize text ≠ [] → splitCaptionText text maxWords maxChars ≠ []) ∧
    (1 ≤ maxWords → (∀ w ∈ (tokenize text).take 1, w.length ≤ maxChars) →
      joinSpace (splitCaptionText text maxWords maxChars) = joinSpace (tokenize text)) := by
  refine ⟨splitCaptionWords_flatten text maxWords maxChars, ?_, ?_⟩
  · intro htok hcontra
    have h1 := splitCaptionWords_flatten text maxWords maxChars
    have h2 : splitCaptionWords text maxWords maxChars = [] :=
      List.map_eq_nil_iff.mp hcontra
    rw [h2] at h1
    simp at h1
    exact htok h1
  · intro hmw hhead
    rw [splitCaptionText,
      joinSpace_map_flatten _ (splitCaptionWords_chunks_ne text maxWords maxChars hmw hhead),
      splitCaptionWords_flatten]

/-- C3 witness: on a concrete input the chunker returns a chunk and the
space-join reproduces the normalized input. -/
theorem splitCaption_rejoin_witness :
    splitCaptionText "hello world" 6 36 ≠ [] ∧
      joinSpace (splitCaptionText "hello world" 6 36) = joinSpace (tokenize "hello world") :=
  ⟨(splitCaption_rejoin "hello world" 6 36).2.1 (by decide),
   (splitCaption_rejoin "hello world" 6 36).2.2 (by decide) (by decide)⟩

/-- C3 counterexample: for "abcd" with `maxWords = 6`, `maxChars = 3` the
chunker emits a leading empty chunk, and the space-joined chunks " abcd"
differ from the whitespace-normalized input "abcd". -/
theorem splitCaption_rejoin_fails_on_overlong_first_word :
    splitCaptionText "abcd" 6 3 = ["", "abcd"] ∧
      joinSpace (splitCaptionText "abcd" 6 3) ≠ joinSpace (tokenize "abcd") := by
  decide

/-- C4 (confirmed): for a non-empty list of parsed timed units, the
rescaling shared by `parseWtsFile` and `parseWhisperJson` leaves every
start and end value unchanged when the maximum end is at most 1000,
multiplies every value by 0.001 when it exceeds 1000, and in both cases
multiplies by one positive constant, so the relative ordering of
timestamps is preserved. -/
theorem scaleByMaxEnd_heuristic (words : List TimedUnit) (hne : words ≠ []) :
    (maxEndOf words ≤ 1000 → scaleByMaxEnd words = words) ∧
    (1000 < maxEndOf words → scaleByMaxEnd words
        = words.map fun u => { u with start := u.start * (1 / 1000), stop := u.stop * (1 / 1000) }) ∧
    (∃ c : ℚ, 0 < c ∧
      scaleByMaxEnd words
          = words.map (fun u => { u with start := u.start * c, stop := u.stop * c }) ∧
      ∀ x y : ℚ, x ≤ y ↔ x * c ≤ y * c) := by
  have hne' : ¬ words.isEmpty = true := by simpa [List.isEmpty_iff] using hne
  by_cases h : 1000 < maxEndOf words
  · refine ⟨fun hle => absurd h (not_lt.mpr hle), fun _ => ?_, ⟨1 / 1000, by norm_num, ?_, ?_⟩⟩
    · simp only [scaleByMaxEnd, if_neg hne', if_pos h]
    · simp only [scaleByMaxEnd, if_neg hne', if_pos h]
    · intro x y
      exact (mul_le_mul_right (by norm_num : (0 : ℚ) < 1 / 1000)).symm
  · have hid : words.map
        (fun u => ({ u with start := u.start * 1, stop := u.stop * 1 } : TimedUnit)) = words := by
      have heach : ∀ u ∈ words,
          ({ u with start := u.start * 1, stop := u.stop * 1 } : TimedUnit) = u := by
        intro u _
        cases u
        simp
      rw [List.map_congr_left heach]
      simp
    refine ⟨fun _ => ?_, fun hgt => absurd hgt h, ⟨1, by norm_num, ?_, ?_⟩⟩
    · simp only [scaleByMaxEnd, if_neg hne', if_neg h]
      exact hid
    · simp only [scaleByMaxEnd, if_neg hne', if_neg h]
    · intro x y
      simp

/-- C4 witness: the spec's example word list (max end 0.9 ≤ 1000) is
returned unchanged. -/
theorem scaleByMaxEnd_heuristic_witness :
    scaleByMaxEnd [⟨0, 2 / 5, "hello"⟩, ⟨2 / 5, 9 / 10, "world"⟩]
      = [⟨0, 2 / 5, "hello"⟩, ⟨2 / 5, 9 / 10, "world"⟩] :=
  (scaleByMaxEnd_heuristic [⟨0, 2 / 5, "hello"⟩, ⟨2 / 5, 9 / 10, "world"⟩] (by decide)).1
    (by norm_num [maxEndOf])

/-- C6 (corrected): for every style name that is not a member of
`Object.prototype`, the style resolution shared by `buildAssFromWordList`
and `buildAssFromSrt` returns one of the four fixed presets with no
error, any name other than exactly "clean", "neon", "boxed" or "punchy"
resolving to the clean profile.  The claim's universal fallback is false
of the program: a prototype member name such as "constructor" makes
`styles[style]` yield a truthy inherited member, which short-circuits
`styles[style] || styles.clean`, so no preset is chosen (counterexample
`resolveStyle_inherited_member`). -/
theorem resolveStyle_fallback_outside_proto (fontSize : Nat) (name : String)
    (hproto : name ∉ objectProtoMembers) :
    (resolveStyle fontSize name = StyleAccess.preset (cleanStyle fontSize) ∨
     resolveStyle fontSize name = StyleAccess.preset (neonStyle fontSize) ∨
     resolveStyle fontSize name = StyleAccess.preset (boxedStyle fontSize) ∨
     resolveStyle fontSize name = StyleAccess.preset (punchyStyle fontSize)) ∧
    (name ∉ (["clean", "neon", "boxed", "punchy"] : List String) →
      resolveStyle fontSize name = StyleAccess.preset (cleanStyle fontSize)) := by
  by_cases h1 : name = "clean" <;> by_cases h2 : name = "neon" <;>
    by_cases h3 : name = "boxed" <;> by_cases h4 : name = "punchy" <;>
    simp [resolveStyle, styleLookup, h1, h2, h3, h4, hproto]

/-- C6 witness: an unrecognized, non-prototype name resolves to the clean
profile. -/
theorem resolveStyle_fallback_outside_proto_witness :
    resolveStyle 48 "sparkly" = StyleAccess.preset (cleanStyle 48) :=
  (resolveStyle_fallback_outside_proto 48 "sparkly" (by decide)).2 (by decide)

/-- C6 counterexample: the style name "constructor" resolves to the
truthy member inherited from `Object.prototype`, not to any of the four
presets and in particular not to the clean profile: the `||` fallback of
`processor.cjs` lines 276 and 376 never fires for it. -/
theorem resolveStyle_inherited_member :
    resolveStyle 48 "constructor" = StyleAccess.inherited "constructor" ∧
      StyleAccess.inherited "constructor" ≠ StyleAccess.preset (cleanStyle 48) ∧
      StyleAccess.inherited "constructor" ≠ StyleAccess.preset (neonStyle 48) ∧
      StyleAccess.inherited "constructor" ≠ StyleAccess.preset (boxedStyle 48) ∧
      StyleAccess.inherited "constructor" ≠ StyleAccess.preset (punchyStyle 48) := by
  decide

/-- C7 (confirmed): for any source path and settings with
`targetDuration` in the documented 15 - 60 s range, `selectBestMoment`
returns exactly `{ start: 0, duration: settings.targetDuration }`; it is a
pure function, so two calls with the same inputs return the same
window. -/
theorem selectBestMoment_fixed_window (inputPath : String) (s : Settings) (d : ℚ)
    (h1 : s.targetDuration = some d) (h2 : 15 ≤ d) (_h3 : d ≤ 60) :
    selectBestMoment inputPath (some s) = { start := 0, duration := d } ∧
      selectBestMoment inputPath (some s) = selectBestMoment inputPath (some s) := by
  have hd : d ≠ 0 := by
    intro h
    rw [h] at h2
    norm_num at h2
  exact ⟨by simp [selectBestMoment, h1, orFalsy, hd], rfl⟩

/-- C7 witness: a 30 s target yields the window `{0, 30}`. -/
theorem selectBestMoment_fixed_window_witness :
    selectBestMoment "video.mp4" (some { targetDuration := some 30 })
      = { start := 0, duration := 30 } :=
  (selectBestMoment_fixed_window "video.mp4" { targetDuration := some 30 } 30 rfl
    (by norm_num) (by norm_num)).1

/-- C9 (confirmed): the denominator of the speed time-scale factor
`100 / (settings.captionSpeed || 100)` used by both remapping paths is
never zero: an absent or zero (falsy) `captionSpeed` is replaced by 100,
and in both of those cases the scale factor is 1. -/
theorem timeScale_denominator_nonzero (s : Settings) :
    orFalsy s.captionSpeed 100 ≠ 0 ∧
      (s.captionSpeed = none → timeScale s = 1) ∧
      (s.captionSpeed = some 0 → timeScale s = 1) := by
  refine ⟨?_, ?_, ?_⟩
  · cases h : s.captionSpeed with
    | none => simp [orFalsy]
    | some x =>
      by_cases hx : x = 0
      · simp [orFalsy, hx]
      · simp [orFalsy, hx]
  · intro h
    norm_num [timeScale, h, orFalsy]
  · intro h
    norm_num [timeScale, h, orFalsy]

/-- C9 witness: at default and at zero caption speed the factor is 1. -/
theorem timeScale_denominator_nonzero_witness :
    orFalsy ({} : Settings).captionSpeed 100 ≠ 0 ∧ timeScale {} = 1 ∧
      timeScale { captionSpeed := some 0 } = 1 :=
  ⟨(timeScale_denominator_nonzero {}).1,
   (timeScale_denominator_nonzero {}).2.1 rfl,
   (timeScale_denominator_nonzero { captionSpeed := some 0 }).2.2 rfl⟩

/-- C10 (confirmed): for every whitespace-only (or empty) input and all
`maxWords` and `maxChars`, `splitCaptionText` returns the empty chunk
list. -/
theorem splitCaptionText_whitespace_empty (text : String) (maxWords maxChars : Nat)
    (h : ∀ c ∈ text.data, c.isWhitespace) :
    splitCaptionText text maxWords maxChars = [] := by
  have htok : tokenize text = [] := wordsAux_all_whitespace text.data h
  simp [splitCaptionText, splitCaptionWords, htok]

/-- C10 witness: two spaces produce no chunks. -/
theorem splitCaptionText_whitespace_empty_witness :
    splitCaptionText "  " 7 21 = [] :=
  splitCaptionText_whitespace_empty "  " 7 21 (by decide)

/-- C5 (amended): on every run in which the whisper driver does not fail
after writing artifacts (so either the driver succeeds and control
reaches the `try { ffmpeg } finally { ... }` of `processor.cjs` lines
567-578, or it fails during provisioning or audio conversion before any
run artifact exists), every temporary artifact created during the run is
passed to `safeDelete`, on success and on encoder failure alike; and the
primary result never depends on whether deletions fail, because
`safeDelete` swallows every deletion error.  The claim's "every exit
path" is NOT satisfied: a `whisper-cli` failure or a missing-SRT throw
after the WAV was extracted exits without any cleanup (counterexample
`processVideoRun_leak_on_transcription_failure`). -/
theorem processVideoRun_cleanup_on_encoder_paths (cfg : RunCfg) (o o₁ o₂ : FsOracle)
    (h1 : cfg.whisper ≠ WhisperRun.engineFails)
    (h2 : cfg.whisper ≠ WhisperRun.srtMissing) :
    (∀ p ∈ (processVideoRun cfg o).created, p ∈ (processVideoRun cfg o).attempted) ∧
      (processVideoRun cfg o₁).result = (processVideoRun cfg o₂).result := by
  obtain ⟨b1, w, b3, b4, b5⟩ := cfg
  cases w
  case engineFails => exact absurd rfl h1
  case srtMissing => exact absurd rfl h2
  all_goals
    cases b1 <;> cases b3 <;> cases b4 <;> cases b5 <;>
      simp [processVideoRun, transcribeWithWhisper, ffmpegResult, optPath]

/-- C5 witness: on a full-artifact successful transcription the extracted
audio is among the deletion attempts, and the result is
oracle-independent. -/
theorem processVideoRun_cleanup_witness :
    "audio.wav" ∈ (processVideoRun ⟨true, WhisperRun.ok, true, true, false⟩
        (fun _ => true)).attempted ∧
      (processVideoRun ⟨true, WhisperRun.ok, true, true, false⟩ (fun _ => true)).result
        = (processVideoRun ⟨true, WhisperRun.ok, true, true, false⟩ (fun _ => false)).result :=
  ⟨(processVideoRun_cleanup_on_encoder_paths ⟨true, WhisperRun.ok, true, true, false⟩
      (fun _ => true) (fun _ => true) (fun _ => false) (by decide) (by decide)).1
      "audio.wav" (by decide),
   (processVideoRun_cleanup_on_encoder_paths ⟨true, WhisperRun.ok, true, true, false⟩
      (fun _ => true) (fun _ => true) (fun _ => false) (by decide) (by decide)).2⟩

/-- C5 counterexample: when captions are requested and `whisper-cli`
exits non-zero after the WAV was extracted (`main.cjs` lines 565 and
578), `processVideo` rethrows from the catch of `processor.cjs` lines
488-491, which is outside the `try/finally` of lines 567-578: the
extracted WAV was created but no deletion is attempted, so not every
temporary artifact is deleted on every exit path. -/
theorem processVideoRun_leak_on_transcription_failure :
    (processVideoRun ⟨true, WhisperRun.engineFails, false, false, false⟩
        (fun _ => false)).created = ["audio.wav"] ∧
      (processVideoRun ⟨true, WhisperRun.engineFails, false, false, false⟩
        (fun _ => false)).attempted = [] ∧
      (processVideoRun ⟨true, WhisperRun.engineFails, false, false, false⟩
        (fun _ => false)).result
        = Except.error "Whisper failed: whisper-cli exited with code 1" :=
  ⟨rfl, rfl, rfl⟩

/-- C8 (amended): when the chunker splits a kept block's text into
N ≥ 2 chunks, `buildAssFromSrt` emits exactly N events, chunk `j`
spanning `[adjustedStart + j*slice, adjustedStart + (j+1)*slice]` with
`slice = max(adjustedEnd - adjustedStart, 0.1) / N`; the N slices cover
the block's adjusted output span exactly whenever that span is at least
0.1 s.  The claim's `total = adjustedEnd - adjustedStart` fails for spans
shorter than 0.1 s, where the slices overshoot the block's span
(counterexample `srtBlockEvents_slices_exceed_span`). -/
theorem srtBlockEvents_equal_slices
    (settings : Settings) (selection : Option Selection) (offsetSec : ℚ) (b : SrtBlock)
    (selectionStart selectionEnd startSec endSec clippedStart clippedEnd
      adjustedStart adjustedEnd total slice : ℚ) (chunks : List String)
    (hselS : selectionStart = orFalsy (selection.map Selection.start) 0)
    (hselE : selectionEnd = selectionStart + orFalsy (selection.map Selection.duration) 0)
    (hstart : startSec = srtTimeToSeconds b.startT)
    (hend : endSec = srtTimeToSeconds b.stopT)
    (hkeep : ¬(0 < selectionEnd ∧ (endSec ≤ selectionStart ∨ selectionEnd ≤ startSec)))
    (hcs : clippedStart = max startSec selectionStart)
    (hce : clippedEnd = if 0 < selectionEnd then min endSec selectionEnd else endSec)
    (hclip : ¬ clippedEnd ≤ clippedStart)
    (htext : ¬ b.text = "")
    (hchunks : chunks = splitCaptionText b.text (orFalsyNat settings.captionMaxWords 6)
        (orFalsyNat settings.captionMaxChars 36))
    (hN : ¬ chunks.length ≤ 1)
    (hadjS : adjustedStart
        = max ((clippedStart - selectionStart) * timeScale settings + offsetSec) 0)
    (hadjE : adjustedEnd
        = max ((clippedEnd - selectionStart) * timeScale settings + offsetSec) 0)
    (htotal : total = max (adjustedEnd - adjustedStart) (1 / 10))
    (hslice : slice = total / (chunks.length : ℚ)) :
    (srtBlockEvents settings selection offsetSec b).length = chunks.length ∧
    (∀ j, j < chunks.length →
      (srtBlockEvents settings selection offsetSec b).getD j { start := 0, stop := 0, text := "" }
        = { start := adjustedStart + slice * (j : ℚ),
            stop := adjustedStart + slice * ((j : ℚ) + 1),
            text := chunks.getD j "" }) ∧
    (1 / 10 ≤ adjustedEnd - adjustedStart →
      adjustedStart + slice * (chunks.length : ℚ) = adjustedEnd) := by
  have hrw : srtBlockEvents settings selection offsetSec b
      = sliceEventsFrom adjustedStart slice 0 chunks := by
    simp only [srtBlockEvents]
    rw [← hselS, ← hselE, ← hstart, ← hend, ← hcs, ← hce, ← hchunks, ← hadjS, ← hadjE]
    rw [if_neg hkeep, if_neg hclip, if_neg htext, if_neg hN]
    rw [← htotal, ← hslice]
  have hlen : (chunks.length : ℚ) ≠ 0 := Nat.cast_ne_zero.mpr (by omega)
  refine ⟨?_, ?_, ?_⟩
  · rw [hrw, sliceEventsFrom_length]
  · intro j hj
    rw [hrw, sliceEventsFrom_getD adjustedStart slice chunks 0 j hj]
    norm_num
  · intro hcov
    rw [htotal, max_eq_left hcov] at hslice
    rw [hslice, div_mul_cancel₀ _ hlen]
    ring

/-- C8 witness: a 1 s block split into two chunks yields two events whose
slices sum back to the block's adjusted end. -/
theorem srtBlockEvents_equal_slices_witness :
    (srtBlockEvents { captionMaxWords := some 1 } (some ⟨0, 30⟩) 0
        ⟨⟨0, 0, 0, 0⟩, ⟨0, 0, 1, 0⟩, "aa bb"⟩).length = (["aa", "bb"] : List String).length ∧
      (0 : ℚ) + 1 / 2 * (((["aa", "bb"] : List String).length : Nat) : ℚ) = 1 := by
  have h := srtBlockEvents_equal_slices { captionMaxWords := some 1 } (some ⟨0, 30⟩) 0
    ⟨⟨0, 0, 0, 0⟩, ⟨0, 0, 1, 0⟩, "aa bb"⟩ 0 30 0 1 0 1 0 1 1 (1 / 2) ["aa", "bb"]
    (by norm_num [orFalsy]) (by norm_num [orFalsy]) (by norm_num [srtTimeToSeconds])
    (by norm_num [srtTimeToSeconds]) (by norm_num) (by norm_num) (by norm_num)
    (by norm_num) (by decide) (by decide) (by decide)
    (by norm_num [timeScale, orFalsy]) (by norm_num [timeScale, orFalsy])
    (by norm_num) (by norm_num)
  exact ⟨h.1, h.2.2 (by norm_num)⟩

/-- C8 counterexample: a 50 ms block (adjusted span `[0, 1/20]`) split
into two chunks is sliced with `total = max(1/20, 1/10) = 1/10`, so the
second event ends at 1/10, not at the block's adjusted end 1/20: the
slices do not exactly cover the block's adjusted output span. -/
theorem srtBlockEvents_slices_exceed_span :
    srtBlockEvents { captionMaxWords := some 1 } (some ⟨0, 30⟩) 0
        ⟨⟨0, 0, 0, 0⟩, ⟨0, 0, 0, 50⟩, "aa bb"⟩
      = [{ start := 0, stop := 1 / 20, text := "aa" },
         { start := 1 / 20, stop := 1 / 10, text := "bb" }] ∧
      max ((srtTimeToSeconds ⟨0, 0, 0, 50⟩ - 0) * timeScale { captionMaxWords := some 1 } + 0) 0
        = (1 / 20 : ℚ) ∧
      ((1 : ℚ) / 10 ≠ 1 / 20) := by
  refine ⟨?_, ?_, by norm_num⟩
  · norm_num [srtBlockEvents, timeScale, orFalsy, orFalsyNat, srtTimeToSeconds,
      splitCaptionText, splitCaptionWords, tokenize, wordsAux, chunkLoop, sliceEventsFrom]
    simp +decide
    norm_num
  · norm_num [srtTimeToSeconds, timeScale, orFalsy]
